import Mathlib

/-!
# Verification of `students/setup.py`

A shallow embedding of the student-machine provisioning script
(`src/students/setup.py`) together with proofs about the claims of its
specification.

Modelling conventions:

* JSON values (as produced by Python `json.loads`) are the inductive `JValue`.
  Python represents JSON `null` as `None`; in particular the sentinel default
  of `dict.get(key, None)` and a stored JSON `null` are the same Python value,
  which the embedding reflects by `Option.getD JValue.null`.
* Python truthiness and `==` are embedded as `JValue.truthy` and `pyEq`.
  Python dict equality is insertion-order-insensitive; `pyEq` compares object
  entries in order, an abstraction that no claim exercises (no claim compares
  two JSON objects for equality).
* JSON numbers are modelled as integers; no claim involves fractional values.
* `logging.fatal` (an alias of `logging.critical`) only writes a log line; it
  neither raises nor exits the process.  The embedding therefore treats every
  `logger.fatal` call in the source as a no-op for control flow, exactly
  as CPython does.
* Side effects (network fetches, subprocess invocations, filesystem writes)
  are collected in an explicit `List Effect` trace.
* Fallible Python code is embedded with `Except PyErr`; an `Except.error`
  models an exception propagating uncaught out of the function.
-/

/-- Python exception kinds that the embedded code can raise. -/
inductive PyErr where
  | indexError
  | keyError
  | typeError
  | valueError
  | eofError
  deriving DecidableEq, Repr

/-- JSON values as decoded by Python `json.loads`.  `null` doubles as the
Python `None` object (that is exactly what `json.loads` produces for JSON
`null`). -/
inductive JValue where
  | null
  | bool (b : Bool)
  | num (n : Int)
  | str (s : String)
  | arr (xs : List JValue)
  | obj (kvs : List (String × JValue))
  deriving Repr

/-- Python truthiness of a JSON value: `None`, `False`, `0`, the empty
string, the empty list and the empty dict are falsy. -/
def JValue.truthy : JValue → Bool
  | .null => false
  | .bool b => b
  | .num n => n != 0
  | .str s => !s.isEmpty
  | .arr xs => !xs.isEmpty
  | .obj kvs => !kvs.isEmpty

/-- Python `True` and `False` compare equal to `1` and `0`. -/
def boolToInt (b : Bool) : Int := if b then 1 else 0

mutual
/-- Python `==` on decoded JSON values.  `bool` and `int` compare across
kinds (`True == 1`); values of otherwise different kinds are unequal.
Object entries are compared in insertion order (see the module comment). -/
def pyEq : JValue → JValue → Bool
  | .null, .null => true
  | .bool a, .bool b => a == b
  | .bool a, .num n => boolToInt a == n
  | .num n, .bool b => n == boolToInt b
  | .num a, .num b => a == b
  | .str a, .str b => a == b
  | .arr a, .arr b => pyEqList a b
  | .obj a, .obj b => pyEqPairs a b
  | _, _ => false

/-- Python `==` on lists, elementwise. -/
def pyEqList : List JValue → List JValue → Bool
  | [], [] => true
  | a :: as, b :: bs => pyEq a b && pyEqList as bs
  | _, _ => false

/-- Python `==` on dict entries, in order. -/
def pyEqPairs : List (String × JValue) → List (String × JValue) → Bool
  | [], [] => true
  | (k, v) :: as, (k2, v2) :: bs => k == k2 && pyEq v v2 && pyEqPairs as bs
  | _, _ => false
end

/-- Python `str(...)` of a decoded JSON value, as used when a value is
interpolated into an f-string.  The rendering of lists and dicts is
abstracted (no claim depends on it). -/
def JValue.pyStr : JValue → String
  | .null => "None"
  | .bool true => "True"
  | .bool false => "False"
  | .num n => toString n
  | .str s => s
  | .arr _ => "[...]"
  | .obj _ => "\x7b...\x7d"

/-- Python subscription `v[0]`: lists and strings index from the front
(raising `IndexError` when empty), dicts of string keys raise `KeyError`
for the integer key `0`, and every other kind raises `TypeError`. -/
def JValue.pyIndex0 : JValue → Except PyErr JValue
  | .arr [] => .error .indexError
  | .arr (x :: _) => .ok x
  | .str s => if s.isEmpty then .error .indexError else .ok (.str (s.take 1))
  | .obj _ => .error .keyError
  | .null => .error .typeError
  | .bool _ => .error .typeError
  | .num _ => .error .typeError

/-- An observable side effect of the script. -/
inductive Effect where
  | net (url : String)
  | fsWrite (path : String)
  | chmod (path : String)
  | mkdir (path : String)
  | subproc (cmd : List String)
  deriving DecidableEq, Repr

/-- Number of network fetches in a trace. -/
def netCount : List Effect → Nat
  | [] => 0
  | .net _ :: rest => netCount rest + 1
  | _ :: rest => netCount rest

/-- Number of subprocess invocations in a trace. -/
def subprocCount : List Effect → Nat
  | [] => 0
  | .subproc _ :: rest => subprocCount rest + 1
  | _ :: rest => subprocCount rest

/-- The host platform, as observed by `platform.system()` together with
(for Linux) the `ID` field of `platform.freedesktop_os_release()`. -/
inductive PlatformInfo where
  | linux (id : String)
  | darwin
  | windows
  | other (name : String)
  deriving DecidableEq, Repr

/-- Embedding of `vscode_download_url`.  `logger.fatal` only logs, and the
unhandled branches return the empty string. -/
def vscode_download_url (p : PlatformInfo) (version : String) : String :=
  match p with
  | .linux id =>
    if id = "ubuntu" ∨ id = "debian" then
      "https://update.code.visualstudio.com/" ++ version ++ "/linux-deb-x64/stable"
    else if id = "rhel" ∨ id = "fedora" then
      "https://update.code.visualstudio.com/" ++ version ++ "/linux-rpm-x64/stable"
    else ""
  | .darwin => "https://update.code.visualstudio.com/" ++ version ++ "/darwin-universal/stable"
  | .windows => "https://update.code.visualstudio.com/" ++ version ++ "/win32-x64-user/stable"
  | .other _ => ""

/-- Embedding of `vscode_file_extension`. -/
def vscode_file_extension (p : PlatformInfo) : String :=
  match p with
  | .linux id =>
    if id = "ubuntu" ∨ id = "debian" then ".deb"
    else if id = "rhel" ∨ id = "fedora" then ".rpm"
    else ""
  | .darwin => ".zip"
  | .windows => ".exe"
  | .other _ => ""

/-- The platforms the script supports: the Debian and RPM Linux families,
macOS and Windows. -/
def supportedPlatform : PlatformInfo → Bool
  | .linux id => id = "ubuntu" ∨ id = "debian" ∨ id = "rhel" ∨ id = "fedora"
  | .darwin => true
  | .windows => true
  | .other _ => false

/-- The package-format file extension the specification expects for each
supported platform (stated from the spec, for comparison with
`vscode_file_extension`). -/
def packageExt : PlatformInfo → String
  | .linux id => if id = "ubuntu" ∨ id = "debian" then ".deb" else ".rpm"
  | .darwin => ".zip"
  | .windows => ".exe"
  | .other _ => ""

/-- Standard macOS application directory used by the script
(`Path.home() / Applications`). -/
def macAppDir : String := "~/Applications"

/-- Path of the application bundle inside `~/Applications`. -/
def macVscodeAppPath : String := macAppDir ++ "/Visual Studio Code.app"

/-- The VSCode binary inside the macOS application bundle. -/
def macVscodeBinaryPath : String :=
  macVscodeAppPath ++ "/Contents/Resources/app/bin/code"

/-- The releases-manifest endpoint fetched by `maybe_install_vscode`. -/
def releasesUrl : String :=
  "https://update.code.visualstudio.com/api/releases/stable"

/-- The part of the host environment that the installer observes.  Each
field is the (deterministic) outcome the outside world would produce for
the corresponding observation or action during one run. -/
structure Env where
  /-- Value of `platform.system()` plus, on Linux, the distro id field of `freedesktop_os_release()`. -/
  platform : PlatformInfo
  /-- Result of `shutil.which("code")` before any installation happened. -/
  whichCode : Option String
  /-- Result of `shutil.which("code")` for lookups made after the install
  stage ran (installing a package may put `code` on the `PATH`). -/
  whichPostInstall : Option String
  /-- Raw body returned for the releases-manifest fetch; `""` models an
  empty payload. -/
  manifestRaw : String
  /-- The manifest body as decoded by `json.loads` (used when the raw body
  is non-empty; a body that fails to parse is outside the claims). -/
  manifest : JValue
  /-- Raw body returned for the artifact download; `""` models an empty
  payload. -/
  artifact : String
  /-- Name of the `NamedTemporaryFile` holding the downloaded artifact. -/
  tmpName : String
  /-- Exit status of `sudo apt install -y <artifact>` (`true` = exit 0). -/
  aptOk : Bool
  /-- Exit status of `sudo dnf install -y <artifact>`. -/
  dnfOk : Bool
  /-- Exit status of running the Windows installer binary. -/
  winOk : Bool
  /-- Exit status of `unzip <artifact> -d ~/Applications`. -/
  unzipOk : Bool
  /-- Whether the macOS bundle binary
  `~/Applications/Visual Studio Code.app/.../bin/code` exists. -/
  macBinaryExists : Bool
  /-- Whether `~/Applications/Visual Studio Code.app` exists. -/
  macAppExists : Bool
  /-- Lines printed by `code --list-extensions` (the installed set). -/
  installedExts : List String
  /-- Exit status of `code --install-extension <ext>` per extension. -/
  extInstallOk : String → Bool
  /-- Whether `<cwd>/.vscode/settings.json` exists. -/
  settingsFileExists : Bool
  /-- Decoded contents of the settings file (top-level JSON object as an
  insertion-ordered association list). -/
  settingsContents : List (String × JValue)
  /-- Whether the `<cwd>/.vscode` directory exists. -/
  settingsDirExists : Bool

/-- Python truthiness of the optional cached path (`if _g_cached_vscode_path:`). -/
def optTruthy : Option String → Bool
  | none => false
  | some s => !s.isEmpty

/-- Embedding of `maybe_vscode_cmd`: return the cached path when truthy,
otherwise consult `shutil.which("code")` (whose result for this call is
`which`) and cache the answer.  Returns (result, new cache). -/
def maybe_vscode_cmd (which : Option String) (cache : Option String) :
    Option String × Option String :=
  if optTruthy cache then (cache, cache)
  else (which, which)

/-- Result of one run of `maybe_install_vscode`: the returned value (or an
uncaught exception), the side-effect trace, and the final value of the
`_g_cached_vscode_path` global. -/
structure InstallOutcome where
  result : Except PyErr Bool
  effects : List Effect
  cache : Option String
  deriving Repr

/-- Embedding of `maybe_install_vscode`.  Notes kept from the source:

* `if maybe_vscode_cmd() is not None:` succeeds without any side effect;
* the manifest is fetched before the platform is examined;
* the two `isinstance` validation branches only call `logger.fatal`, which
  logs and falls through, so `versions[0]` is evaluated regardless and the
  resulting value (whatever its type) is interpolated into the URL;
* `urllib.request.urlopen("")` raises `ValueError` (unknown url type), which
  is what an unsupported platform leads to, since `vscode_download_url`
  returned the empty string. -/
def maybe_install_vscode (env : Env) (cache : Option String) : InstallOutcome :=
  let mc := maybe_vscode_cmd env.whichCode cache
  let cache1 := mc.2
  if mc.1.isSome then ⟨.ok true, [], cache1⟩
  else
    let effs0 := [Effect.net releasesUrl]
    if env.manifestRaw = "" then ⟨.ok false, effs0, cache1⟩
    else
      match env.manifest.pyIndex0 with
      | .error e => ⟨.error e, effs0, cache1⟩
      | .ok v0 =>
        let url := vscode_download_url env.platform v0.pyStr
        if url = "" then ⟨.error .valueError, effs0, cache1⟩
        else
          let effs1 := effs0 ++ [Effect.net url]
          if env.artifact = "" then ⟨.ok false, effs1, cache1⟩
          else
            let effs2 := effs1 ++ [Effect.fsWrite env.tmpName]
            match env.platform with
            | .linux id =>
              if id = "ubuntu" ∨ id = "debian" then
                ⟨.ok env.aptOk,
                 effs2 ++ [Effect.subproc ["sudo", "apt", "install", "-y", env.tmpName]],
                 cache1⟩
              else if id = "rhel" ∨ id = "fedora" then
                ⟨.ok env.dnfOk,
                 effs2 ++ [Effect.subproc ["sudo", "dnf", "install", "-y", env.tmpName]],
                 cache1⟩
              else ⟨.ok false, effs2, cache1⟩
            | .windows =>
              ⟨.ok env.winOk,
               effs2 ++ [Effect.chmod env.tmpName, Effect.subproc [env.tmpName]],
               cache1⟩
            | .darwin =>
              if env.macBinaryExists then
                ⟨.ok true, effs2, some macVscodeBinaryPath⟩
              else if env.macAppExists then
                ⟨.ok false, effs2, cache1⟩
              else
                let effs3 := effs2 ++ [Effect.subproc ["unzip", env.tmpName, "-d", macAppDir]]
                if env.unzipOk then ⟨.ok true, effs3, some macVscodeBinaryPath⟩
                else ⟨.ok false, effs3, cache1⟩
            | .other _ => ⟨.ok false, effs2, cache1⟩

/-- The extensions the script always installs. -/
def AUTOINSTALLED_VSCODE_EXTENSIONS : List String :=
  ["ms-python.python", "ms-vsliveshare.vsliveshare"]

/-- The optional autoformatter extensions. -/
def AUTOFORMAT_VSCODE_EXTENSIONS : List String :=
  ["ms-python.autopep8", "ms-python.black-formatter"]

/-- The recommended settings merged into `.vscode/settings.json`. -/
def RECOMMENDED_VSCODE_SETTINGS : List (String × JValue) :=
  [("python.analysis.typeCheckingMode", JValue.str "strict")]

/-- The effect of one `install_extension` call. -/
def installEffect (cmd ext : String) : Effect :=
  Effect.subproc [cmd, "--install-extension", ext]

/-- Embedding of the install loop at the end of
`maybe_install_vscode_extensions`: install each extension in order,
stopping at (and returning `false` after) the first failed install.
`installOk ext` is the exit status the environment gives
`code --install-extension ext`. -/
def installLoop (cmd : String) (installOk : String → Bool) :
    List String → Bool × List Effect
  | [] => (true, [])
  | e :: rest =>
    if installOk e then
      let out := installLoop cmd installOk rest
      (out.1, installEffect cmd e :: out.2)
    else (false, [installEffect cmd e])

/-- Embedding of `maybe_install_vscode_extensions`.  The function first
queries the installed set (`get_existing_vscode_extensions`, one
`code --list-extensions` subprocess whose output is `installed`; a non-zero
exit there only triggers `logger.fatal`, which logs and falls through),
filters the requested list down to the ones not installed, and installs
those in order. -/
def maybe_install_vscode_extensions (cmd : String) (installed : List String)
    (installOk : String → Bool) (extensions : List String) :
    Bool × List Effect :=
  let queryEff := Effect.subproc [cmd, "--list-extensions"]
  let exts := extensions.filter (fun e => !installed.contains e)
  if exts.isEmpty then (true, [queryEff])
  else
    let out := installLoop cmd installOk exts
    (out.1, queryEff :: out.2)

/-- First binding of a key in an insertion-ordered association list
(Python dict lookup). -/
def lookupKey (k : String) : List (String × JValue) → Option JValue
  | [] => none
  | (k2, v) :: rest => if k2 = k then some v else lookupKey k rest

/-- Python dict assignment `d[k] = v`: replace the binding in place when
the key is present, otherwise append it (insertion order). -/
def dictSet (s : List (String × JValue)) (k : String) (v : JValue) :
    List (String × JValue) :=
  match s with
  | [] => [(k, v)]
  | (k2, v2) :: rest =>
    if k2 = k then (k2, v) :: rest else (k2, v2) :: dictSet rest k v

/-- Result of the settings merge: the merged mapping, whether the
`didChange` flag was set, and the conflict warnings printed
(key, existing value, recommended value). -/
structure MergeResult where
  settings : List (String × JValue)
  didChange : Bool
  warnings : List (String × JValue × JValue)
  deriving Repr

/-- One iteration of the merge loop in `setup_vscode_settings`:

* `existing_setting = settings.get(setting, None)` is `.getD .null`
  (Python `None` is JSON `null`);
* `if existing_setting and existing_setting != val:` warn and continue;
* `if existing_setting == val:` continue;
* otherwise `settings[setting] = val` and mark changed. -/
def mergeOne (s : List (String × JValue)) (k : String) (v : JValue) :
    MergeResult :=
  let existing := (lookupKey k s).getD .null
  if existing.truthy && !(pyEq existing v) then ⟨s, false, [(k, existing, v)]⟩
  else if pyEq existing v then ⟨s, false, []⟩
  else ⟨dictSet s k v, true, []⟩

/-- The merge loop of `setup_vscode_settings` over the recommended
(key, value) pairs in iteration order. -/
def mergeSettings : List (String × JValue) → List (String × JValue) →
    MergeResult
  | [], s => ⟨s, false, []⟩
  | (k, v) :: rest, s =>
    let first := mergeOne s k v
    let restOut := mergeSettings rest first.settings
    ⟨restOut.settings, first.didChange || restOut.didChange,
     first.warnings ++ restOut.warnings⟩

/-- Result of joining the workspace path with the `.vscode` directory name. -/
def settingsDirOf (path : String) : String := path ++ "/.vscode"

/-- Result of joining the settings directory with the file name `settings.json`. -/
def settingsPathOf (path : String) : String :=
  settingsDirOf path ++ "/settings.json"

/-- Result of one run of `setup_vscode_settings`. -/
structure SettingsOutcome where
  result : List (String × JValue)
  didWrite : Bool
  dirCreated : Bool
  warnings : List (String × JValue × JValue)
  effects : List Effect
  deriving Repr

/-- Embedding of `setup_vscode_settings`: read the file when it exists
(else start from the empty dict), merge the recommended settings, and only
when `didChange` was set create the missing directory and rewrite the
file. -/
def setup_vscode_settings (path : String) (fileExists : Bool)
    (contents : List (String × JValue)) (dirExists : Bool)
    (recommended : List (String × JValue)) : SettingsOutcome :=
  let s := if fileExists then contents else []
  let m := mergeSettings recommended s
  if m.didChange then
    let dirEffs := if dirExists then [] else [Effect.mkdir (settingsDirOf path)]
    ⟨m.settings, true, !dirExists, m.warnings,
     dirEffs ++ [Effect.fsWrite (settingsPathOf path)]⟩
  else ⟨m.settings, false, false, m.warnings, []⟩

/-- Python `str.lower()` applied to a prompt answer, character by
character (all comparisons in the prompt tables are ASCII).  Implemented
over the character data directly. -/
def pyLower (s : String) : String := ⟨s.data.map Char.toLower⟩

/-- The lookup table of `query_yes_no`. -/
def yes_no_valid : List (String × Bool) :=
  [("yes", true), ("y", true), ("ye", true), ("no", false), ("n", false)]

/-- Lookup in a `String`-keyed table (Python `choice in valid` followed by
`valid[choice]`). -/
def tableLookup {α : Type} (k : String) : List (String × α) → Option α
  | [] => none
  | (k2, v) :: rest => if k2 = k then some v else tableLookup k rest

/-- Embedding of `query_yes_no` over the sequence of lines the user types:
empty input returns `False`, a valid answer returns its value, anything
else re-prompts (consumes the line and recurses).  Running out of input
models `input()` raising `EOFError`. -/
def query_yes_no : List String → Except PyErr Bool
  | [] => .error .eofError
  | c :: rest =>
    let choice := pyLower c
    if choice = "" then .ok false
    else
      match tableLookup choice yes_no_valid with
      | some b => .ok b
      | none => query_yes_no rest

/-- The lookup table of `query_auto_formatter` (answer to index into
`AUTOFORMAT_VSCODE_EXTENSIONS`; index 2 means none). -/
def formatter_valid : List (String × Nat) :=
  [("1", 0), ("a", 0), ("auto", 0), ("autopep8", 0),
   ("2", 1), ("b", 1), ("black", 1),
   ("3", 2), ("n", 2), ("no", 2)]

/-- Embedding of `query_auto_formatter`: empty input defaults to no
formatter, a valid answer selects by index (an index past the end of the
list means no formatter), anything else re-prompts. -/
def query_auto_formatter : List String → Except PyErr (Option String)
  | [] => .error .eofError
  | c :: rest =>
    let choice := pyLower c
    if choice = "" then .ok none
    else
      match tableLookup choice formatter_valid with
      | some idx =>
        if AUTOFORMAT_VSCODE_EXTENSIONS.length ≤ idx then .ok none
        else .ok (some (AUTOFORMAT_VSCODE_EXTENSIONS.getD idx ""))
      | none => query_auto_formatter rest

/-- Result of one run of `install_all`: the returned value (or an uncaught
exception), the side-effect trace, and the settings-stage outcome when
that stage was reached. -/
structure RunOutcome where
  result : Except PyErr Unit
  effects : List Effect
  settingsOutcome : Option SettingsOutcome

/-- Embedding of `install_all`.  Notes kept from the source:

* the Python-version check only calls `logger.fatal`, which logs and falls
  through, so execution continues either way;
* with `--yes` the working-directory prompt is skipped, otherwise a
  declined (or empty) answer returns before any install or settings step;
* the install stage starts with the module-global cached path, which is
  `None` at process start;
* a falsy formatter answer adds no extension (`if formatter:`);
* the extension stage resolves the `code` command again through
  `maybe_vscode_cmd`; if it resolves to `None`, `subprocess.run([None, ...])`
  raises `TypeError` before any subprocess is spawned. -/
def install_all (env : Env) (yes : Bool)
    (yesNoInputs formatterInputs : List String) (cwd : String) : RunOutcome :=
  let proceed : Except PyErr Bool :=
    if yes then .ok true else query_yes_no yesNoInputs
  match proceed with
  | .error e => ⟨.error e, [], none⟩
  | .ok false => ⟨.ok (), [], none⟩
  | .ok true =>
    let inst := maybe_install_vscode env none
    match inst.result with
    | .error e => ⟨.error e, inst.effects, none⟩
    | .ok false => ⟨.ok (), inst.effects, none⟩
    | .ok true =>
      let extChoice : Except PyErr (List String) :=
        if yes then .ok AUTOINSTALLED_VSCODE_EXTENSIONS
        else
          match query_auto_formatter formatterInputs with
          | .error e => .error e
          | .ok none => .ok AUTOINSTALLED_VSCODE_EXTENSIONS
          | .ok (some f) =>
            .ok (if f.isEmpty then AUTOINSTALLED_VSCODE_EXTENSIONS
                 else AUTOINSTALLED_VSCODE_EXTENSIONS ++ [f])
      match extChoice with
      | .error e => ⟨.error e, inst.effects, none⟩
      | .ok extensions =>
        match (maybe_vscode_cmd env.whichPostInstall inst.cache).1 with
        | none => ⟨.error .typeError, inst.effects, none⟩
        | some cmd =>
          let extOut := maybe_install_vscode_extensions cmd env.installedExts
            env.extInstallOk extensions
          if extOut.1 then
            let so := setup_vscode_settings cwd env.settingsFileExists
              env.settingsContents env.settingsDirExists
              RECOMMENDED_VSCODE_SETTINGS
            ⟨.ok (), inst.effects ++ extOut.2 ++ so.effects, some so⟩
          else ⟨.ok (), inst.effects ++ extOut.2, none⟩

/-- The extension name of an `--install-extension` subprocess effect. -/
def effectInstallArg : Effect → Option String
  | .subproc [_c, flag, x] =>
    if flag = "--install-extension" then some x else none
  | _ => none

/-- Extensions passed to `--install-extension` in a trace, in order. -/
def installArgs (l : List Effect) : List String :=
  l.filterMap effectInstallArg

/-- Whether an effect is a `--list-extensions` query. -/
def isListQuery : Effect → Bool
  | .subproc [_c, flag] => flag == "--list-extensions"
  | _ => false

/-- Number of `--list-extensions` queries in a trace. -/
def listQueryCount (l : List Effect) : Nat :=
  l.countP isListQuery

/-- The condition under which one merge iteration assigns its key: the
pre-merge value (with absent read as Python `None`) is falsy and differs
from the recommended value.  This characterises the third branch of the
loop body: reaching it needs both prior tests false. -/
def changeCond (s : List (String × JValue)) (p : String × JValue) : Bool :=
  let existing := (lookupKey p.1 s).getD .null
  !existing.truthy && !(pyEq existing p.2)

/-- A default concrete environment for witnesses: an Ubuntu host with no
prior VSCode installation, a well-formed one-entry manifest, and every
external step succeeding. -/
def envDefault : Env where
  platform := .linux "ubuntu"
  whichCode := none
  whichPostInstall := some "/usr/bin/code"
  manifestRaw := "[\"1.104.0\"]"
  manifest := .arr [.str "1.104.0"]
  artifact := "artifact-bytes"
  tmpName := "/tmp/vscode-artifact.deb"
  aptOk := true
  dnfOk := true
  winOk := true
  unzipOk := true
  macBinaryExists := false
  macAppExists := false
  installedExts := []
  extInstallOk := fun _ => true
  settingsFileExists := false
  settingsContents := []
  settingsDirExists := false

/-- Environment whose releases manifest decodes to the empty JSON list. -/
def envManifestEmptyList : Env :=
  { envDefault with manifestRaw := "[]", manifest := .arr [] }

/-- Environment whose releases manifest decodes to the JSON list `[1]`
(first element not a string). -/
def envManifestNumHead : Env :=
  { envDefault with manifestRaw := "[1]", manifest := .arr [.num 1] }

/-- Environment on an unsupported operating system. -/
def envUnsupportedOS : Env :=
  { envDefault with platform := .other "FreeBSD" }

/-- Environment on an unsupported Linux distribution. -/
def envUnsupportedDistro : Env :=
  { envDefault with platform := .linux "arch" }

/-- macOS environment where the VSCode bundle binary already exists in
`~/Applications` but `code` is not on the `PATH`. -/
def envMacPresent : Env :=
  { envDefault with
      platform := .darwin
      whichPostInstall := none
      manifestRaw := "[\"1.104.0\"]"
      artifact := "zip-bytes"
      tmpName := "/tmp/vscode.zip"
      macBinaryExists := true
      macAppExists := true }

/-- Environment where `code` is already resolvable on the `PATH`. -/
def envWhichFound : Env :=
  { envDefault with whichCode := some "/usr/local/bin/code" }

/-- The recommended settings key named in the claims about the merge. -/
def typeCheckingKey : String := "python.analysis.typeCheckingMode"

theorem String.data_append_eq (a b : String) :
    (a ++ b).data = a.data ++ b.data := by
  obtain ⟨da⟩ := a
  obtain ⟨db⟩ := b
  rfl

theorem String.append_ne_empty_of_left (a b : String) (h : a.data ≠ []) :
    a ++ b ≠ "" := by
  intro hab
  apply h
  have h2 : a.data ++ b.data = ([] : List Char) := by
    rw [← String.data_append_eq, hab]
  exact (List.append_eq_nil.mp h2).1

theorem String.append3_ne_empty (a b c : String) (h : a.data ≠ []) :
    a ++ b ++ c ≠ "" := by
  apply String.append_ne_empty_of_left
  rw [String.data_append_eq]
  intro h2
  exact h (List.append_eq_nil.mp h2).1

theorem pyEq_null_right {v : JValue} (h : pyEq JValue.null v = true) :
    v = JValue.null := by
  cases v <;> simp [pyEq] at h ⊢

theorem effectInstallArg_installEffect (cmd e : String) :
    effectInstallArg (installEffect cmd e) = some e := by
  simp [effectInstallArg, installEffect]

theorem isListQuery_installEffect (cmd e : String) :
    isListQuery (installEffect cmd e) = false := by
  simp [isListQuery, installEffect]

theorem installLoop_all_ok (cmd : String) (installOk : String → Bool)
    (l : List String) (h : ∀ e ∈ l, installOk e = true) :
    installLoop cmd installOk l = (true, l.map (installEffect cmd)) := by
  induction l with
  | nil => rfl
  | cons e rest ih =>
    have he : installOk e = true := h e (by simp)
    simp only [installLoop, he, if_pos]
    rw [ih (fun x hx => h x (by simp [hx]))]
    rfl

theorem installLoop_fail (cmd : String) (installOk : String → Bool)
    (pre : List String) (f : String) (post : List String)
    (hpre : ∀ e ∈ pre, installOk e = true) (hf : installOk f = false) :
    installLoop cmd installOk (pre ++ f :: post) =
      (false, pre.map (installEffect cmd) ++ [installEffect cmd f]) := by
  induction pre with
  | nil => simp [installLoop, hf]
  | cons e rest ih =>
    have he : installOk e = true := hpre e (by simp)
    simp only [List.cons_append, installLoop, he, if_pos]
    simp only [List.append_eq] at ih ⊢
    rw [ih (fun x hx => hpre x (by simp [hx]))]
    simp

theorem installArgs_map_installEffect (cmd : String) (l : List String) :
    installArgs (l.map (installEffect cmd)) = l := by
  induction l with
  | nil => rfl
  | cons e rest ih =>
    simp only [List.map_cons, installArgs, List.filterMap_cons,
      effectInstallArg_installEffect]
    exact congrArg (List.cons e) ih

theorem installArgs_installLoop_sub (cmd : String) (installOk : String → Bool)
    (l : List String) :
    ∀ x ∈ installArgs (installLoop cmd installOk l).2, x ∈ l := by
  induction l with
  | nil => simp [installLoop, installArgs]
  | cons e rest ih =>
    intro x hx
    by_cases he : installOk e = true
    · rw [installLoop, if_pos he] at hx
      simp only [installArgs, List.filterMap_cons,
        effectInstallArg_installEffect] at hx
      rcases List.mem_cons.mp hx with h1 | h1
      · simp [h1]
      · exact List.mem_cons_of_mem _ (ih x h1)
    · rw [installLoop, if_neg he] at hx
      have h1 : x = e := by
        simpa [installArgs, List.filterMap_cons,
          effectInstallArg_installEffect] using hx
      simp [h1]

theorem listQueryCount_installLoop (cmd : String) (installOk : String → Bool)
    (l : List String) :
    listQueryCount (installLoop cmd installOk l).2 = 0 := by
  induction l with
  | nil => rfl
  | cons e rest ih =>
    by_cases he : installOk e = true
    · simp only [installLoop, he, if_pos]
      simp [listQueryCount, List.countP_cons, isListQuery_installEffect] at ih ⊢
      exact ih
    · rw [installLoop, if_neg he]
      simp [listQueryCount, List.countP_cons, isListQuery_installEffect]

theorem lookupKey_dictSet_self (s : List (String × JValue)) (k : String)
    (v : JValue) : lookupKey k (dictSet s k v) = some v := by
  induction s with
  | nil => simp [dictSet, lookupKey]
  | cons p rest ih =>
    obtain ⟨k2, v2⟩ := p
    by_cases h : k2 = k
    · simp [dictSet, h, lookupKey]
    · simp [dictSet, h, lookupKey, ih]

theorem lookupKey_dictSet_other (s : List (String × JValue)) (k q : String)
    (v : JValue) (h : q ≠ k) :
    lookupKey q (dictSet s k v) = lookupKey q s := by
  induction s with
  | nil => simp [dictSet, lookupKey, Ne.symm h]
  | cons p rest ih =>
    obtain ⟨k2, v2⟩ := p
    by_cases h2 : k2 = k
    · subst h2
      simp [dictSet, lookupKey, Ne.symm h]
    · simp [dictSet, h2, lookupKey, ih]

theorem mergeOne_lookup_other (s : List (String × JValue)) (k : String)
    (v : JValue) (q : String) (h : q ≠ k) :
    lookupKey q (mergeOne s k v).settings = lookupKey q s := by
  simp only [mergeOne]
  split_ifs <;> simp [lookupKey_dictSet_other s k q v h]

theorem mergeOne_didChange (s : List (String × JValue)) (k : String)
    (v : JValue) : (mergeOne s k v).didChange = changeCond s (k, v) := by
  unfold mergeOne changeCond
  cases hT : ((lookupKey k s).getD .null).truthy <;>
    cases hE : pyEq ((lookupKey k s).getD .null) v <;>
      simp [hT, hE]

theorem mergeSettings_lookup_not_mem (rec : List (String × JValue))
    (s : List (String × JValue)) (q : String)
    (h : q ∉ rec.map Prod.fst) :
    lookupKey q (mergeSettings rec s).settings = lookupKey q s := by
  induction rec generalizing s with
  | nil => rfl
  | cons p rest ih =>
    obtain ⟨k, v⟩ := p
    simp only [List.map_cons, List.mem_cons] at h
    push_neg at h
    simp only [mergeSettings]
    rw [ih (mergeOne s k v).settings h.2]
    exact mergeOne_lookup_other s k v q h.1

theorem mergeSettings_didChange_iff (rec : List (String × JValue))
    (s : List (String × JValue)) (h : (rec.map Prod.fst).Nodup) :
    (mergeSettings rec s).didChange = true ↔
      ∃ p ∈ rec, changeCond s p = true := by
  induction rec generalizing s with
  | nil => simp [mergeSettings]
  | cons p rest ih =>
    obtain ⟨k, v⟩ := p
    simp only [List.map_cons, List.nodup_cons] at h
    simp only [mergeSettings, Bool.or_eq_true, mergeOne_didChange]
    rw [ih (mergeOne s k v).settings h.2]
    have hcong : ∀ q ∈ rest, changeCond (mergeOne s k v).settings q =
        changeCond s q := by
      intro q hq
      have hne : q.1 ≠ k := by
        intro he
        exact h.1 (he ▸ List.mem_map_of_mem Prod.fst hq)
      unfold changeCond
      rw [mergeOne_lookup_other s k v q.1 hne]
    constructor
    · rintro (h1 | ⟨q, hq, h1⟩)
      · exact ⟨(k, v), by simp, h1⟩
      · exact ⟨q, by simp [hq], (hcong q hq) ▸ h1⟩
    · rintro ⟨q, hq, h1⟩
      rcases List.mem_cons.mp hq with h2 | h2
      · exact Or.inl (h2 ▸ h1)
      · exact Or.inr ⟨q, h2, (hcong q h2).symm ▸ h1⟩

theorem mergeSettings_sets_absent (rec : List (String × JValue))
    (s : List (String × JValue)) (h : (rec.map Prod.fst).Nodup)
    (k : String) (v : JValue) (hmem : (k, v) ∈ rec)
    (habs : lookupKey k s = none) (hnn : v ≠ JValue.null) :
    lookupKey k (mergeSettings rec s).settings = some v := by
  induction rec generalizing s with
  | nil => cases hmem
  | cons p rest ih =>
    obtain ⟨k0, v0⟩ := p
    simp only [List.map_cons, List.nodup_cons] at h
    rcases List.mem_cons.mp hmem with h2 | h2
    · have hk : k = k0 := congrArg Prod.fst h2
      have hv : v = v0 := congrArg Prod.snd h2
      subst hk
      subst hv
      simp only [mergeSettings]
      have hced : (mergeOne s k v).settings = dictSet s k v := by
        unfold mergeOne
        rw [habs]
        have hne : pyEq JValue.null v = false := by
          cases hpe : pyEq JValue.null v
          · rfl
          · exact absurd (pyEq_null_right hpe) hnn
        simp [JValue.truthy, hne]
      rw [mergeSettings_lookup_not_mem rest (mergeOne s k v).settings k h.1,
        hced, lookupKey_dictSet_self]
    · have hk0 : k ≠ k0 := by
        intro he
        exact h.1 (he ▸ List.mem_map_of_mem Prod.fst h2)
      simp only [mergeSettings]
      exact ih (mergeOne s k0 v0).settings h.2 h2
        ((mergeOne_lookup_other s k0 v0 k hk0) ▸ habs)

/-- C1: the claim states that the settings merger leaves every conflicting
existing value unchanged and warns, whatever the value, including falsy
values.  The code contradicts this (and its own docstring): with the
recommended key present with the falsy value `false`, which differs from
the recommended `"strict"`, the merge silently overwrites it with
`"strict"`, emits no warning, sets the change flag, and rewrites the
file.  The guard `if existing_setting and existing_setting != val:` tests
truthiness of the existing value before comparing, so falsy conflicting
values skip the warning branch and fall through to the assignment. -/
theorem settings_merge_overwrites_falsy_conflict :
    (setup_vscode_settings "/work" true [(typeCheckingKey, JValue.bool false)]
        true RECOMMENDED_VSCODE_SETTINGS).result
      = [(typeCheckingKey, JValue.str "strict")] ∧
    (setup_vscode_settings "/work" true [(typeCheckingKey, JValue.bool false)]
        true RECOMMENDED_VSCODE_SETTINGS).warnings = [] ∧
    (setup_vscode_settings "/work" true [(typeCheckingKey, JValue.bool false)]
        true RECOMMENDED_VSCODE_SETTINGS).didWrite = true :=
  ⟨rfl, rfl, rfl⟩

/-- C2: the claim states that a manifest that is not a list, or empty, or
with a non-string first element, makes the install stage return `False`
cleanly, with no artifact download and no install subprocess.  The code
contradicts this (and its own docstring): the `isinstance` checks only
call `logger.fatal`, which logs and falls through.  An empty-list manifest
makes `versions[0]` raise an uncaught `IndexError` after the manifest
fetch; a manifest `[1]` (first element not a string) proceeds to download
the artifact and run the install subprocess. -/
theorem manifest_validation_crashes_or_downloads :
    (maybe_install_vscode envManifestEmptyList none).result
      = .error .indexError ∧
    (maybe_install_vscode envManifestEmptyList none).effects
      = [Effect.net releasesUrl] ∧
    (maybe_install_vscode envManifestNumHead none).result = .ok true ∧
    netCount (maybe_install_vscode envManifestNumHead none).effects = 2 ∧
    subprocCount (maybe_install_vscode envManifestNumHead none).effects = 1 :=
  ⟨rfl, rfl, rfl, rfl, rfl⟩

/-- C3: the claim states that on an unsupported platform or distribution
the run aborts fatally before any side effect, with a process exit and no
unhandled fault.  The code contradicts this: the manifest is fetched over
the network before the platform is examined, `logger.fatal` does not exit,
`vscode_download_url` returns the empty string, and
`urllib.request.urlopen("")` then raises an uncaught `ValueError`.  The
same happens on an unsupported Linux distribution. -/
theorem unsupported_platform_fetches_then_raises :
    (maybe_install_vscode envUnsupportedOS none).result
      = .error .valueError ∧
    (maybe_install_vscode envUnsupportedOS none).effects
      = [Effect.net releasesUrl] ∧
    (maybe_install_vscode envUnsupportedDistro none).result
      = .error .valueError ∧
    (maybe_install_vscode envUnsupportedDistro none).effects
      = [Effect.net releasesUrl] :=
  ⟨rfl, rfl, rfl, rfl⟩

/-- C4: for every supported (OS, distro) pair, platform resolution returns
a non-empty download URL and the file extension matching that platform
package format; for every unsupported input both functions return the
empty string (the failure signal) without raising. -/
theorem platform_resolution_supported_and_unsupported
    (p : PlatformInfo) (version : String) :
    (supportedPlatform p = true →
      vscode_download_url p version ≠ "" ∧
      vscode_file_extension p = packageExt p) ∧
    (supportedPlatform p = false →
      vscode_download_url p version = "" ∧ vscode_file_extension p = "") := by
  have hhttps : ("https://update.code.visualstudio.com/" : String).data ≠ [] := by
    decide
  cases p with
  | linux id =>
    refine ⟨fun hs => ?_, fun hs => ?_⟩
    · have hor : id = "ubuntu" ∨ id = "debian" ∨ id = "rhel" ∨ id = "fedora" := by
        simpa [supportedPlatform] using hs
      rcases hor with h | h | h | h <;> subst h <;>
        exact ⟨String.append3_ne_empty _ _ _ hhttps, rfl⟩
    · have hor : ¬(id = "ubuntu" ∨ id = "debian" ∨ id = "rhel" ∨ id = "fedora") := by
        simpa [supportedPlatform] using hs
      push_neg at hor
      obtain ⟨h1, h2, h3, h4⟩ := hor
      constructor
      · simp [vscode_download_url, h1, h2, h3, h4]
      · simp [vscode_file_extension, h1, h2, h3, h4]
  | darwin =>
    refine ⟨fun _ => ⟨String.append3_ne_empty _ _ _ hhttps, rfl⟩, fun hs => ?_⟩
    simp [supportedPlatform] at hs
  | windows =>
    refine ⟨fun _ => ⟨String.append3_ne_empty _ _ _ hhttps, rfl⟩, fun hs => ?_⟩
    simp [supportedPlatform] at hs
  | other n =>
    refine ⟨fun hs => ?_, fun _ => ⟨rfl, rfl⟩⟩
    simp [supportedPlatform] at hs

/-- Witness for C4 at two concrete inputs: a supported pair (Ubuntu) and
an unsupported operating system. -/
theorem platform_resolution_witness :
    (vscode_download_url (.linux "ubuntu") "1.104.0" ≠ "" ∧
      vscode_file_extension (.linux "ubuntu") = packageExt (.linux "ubuntu")) ∧
    (vscode_download_url (.other "FreeBSD") "1.104.0" = "" ∧
      vscode_file_extension (.other "FreeBSD") = "") :=
  ⟨(platform_resolution_supported_and_unsupported
      (.linux "ubuntu") "1.104.0").1 (by decide),
   (platform_resolution_supported_and_unsupported
      (.other "FreeBSD") "1.104.0").2 (by decide)⟩

/-- C5 counterexample: on macOS with the VSCode bundle binary present in
`~/Applications` but `code` absent from the `PATH`, the installer does
skip the install subprocess and return success, but only after two network
fetches (manifest and artifact), refuting the claimed zero network fetches
for that case. -/
theorem installer_idempotence_counterexample :
    envMacPresent.macBinaryExists = true ∧
    envMacPresent.platform = .darwin ∧
    (maybe_install_vscode envMacPresent none).result = .ok true ∧
    netCount (maybe_install_vscode envMacPresent none).effects = 2 ∧
    subprocCount (maybe_install_vscode envMacPresent none).effects = 0 :=
  ⟨rfl, rfl, rfl, rfl, rfl⟩

/-- C5 amended: when the IDE is resolvable on the system path, the
installer returns success with an empty effect trace (zero network fetches
and zero subprocess calls).  On macOS, when the binary is not on the path
but present in the standard application directory (and the manifest and
artifact fetches return data), the installer still returns success without
any subprocess call, but performs two network fetches first. -/
theorem installer_idempotent_amended (env : Env) (cache : Option String) :
    ((maybe_vscode_cmd env.whichCode cache).1.isSome = true →
      maybe_install_vscode env cache =
        ⟨.ok true, [], (maybe_vscode_cmd env.whichCode cache).2⟩) ∧
    (env.platform = .darwin →
      (maybe_vscode_cmd env.whichCode cache).1 = none →
      env.manifestRaw ≠ "" →
      (∃ v vs, env.manifest = .arr (v :: vs)) →
      env.artifact ≠ "" →
      env.macBinaryExists = true →
      (maybe_install_vscode env cache).result = .ok true ∧
      subprocCount (maybe_install_vscode env cache).effects = 0 ∧
      netCount (maybe_install_vscode env cache).effects = 2) := by
  constructor
  · intro h
    simp [maybe_install_vscode, h]
  · intro hplat hnone hraw hm hart hmac
    obtain ⟨v, vs, hm⟩ := hm
    have hcmd : (maybe_vscode_cmd env.whichCode cache).1.isSome = false := by
      rw [hnone]
      rfl
    have hurl : vscode_download_url PlatformInfo.darwin v.pyStr ≠ "" :=
      String.append3_ne_empty _ _ _ (by decide)
    have hout : maybe_install_vscode env cache =
        ⟨.ok true,
         [Effect.net releasesUrl,
          Effect.net (vscode_download_url PlatformInfo.darwin v.pyStr),
          Effect.fsWrite env.tmpName],
         some macVscodeBinaryPath⟩ := by
      simp [maybe_install_vscode, hcmd, hraw, hm, hplat, hmac, hart, hurl,
        JValue.pyIndex0]
    rw [hout]
    exact ⟨rfl, rfl, rfl⟩

/-- Witness for C5 amended: the path-resolvable case on a concrete
environment, and the macOS application-directory case on the concrete
counterexample environment. -/
theorem installer_idempotent_amended_witness :
    maybe_install_vscode envWhichFound none =
      ⟨.ok true, [], some "/usr/local/bin/code"⟩ ∧
    subprocCount (maybe_install_vscode envMacPresent none).effects = 0 := by
  constructor
  · exact (installer_idempotent_amended envWhichFound none).1 rfl
  · exact ((installer_idempotent_amended envMacPresent none).2 rfl rfl
      (by decide) ⟨JValue.str "1.104.0", [], rfl⟩ (by decide) rfl).2.1

theorem effectInstallArg_query (cmd : String) :
    effectInstallArg (Effect.subproc [cmd, "--list-extensions"]) = none := rfl

theorem isListQuery_query (cmd : String) :
    isListQuery (Effect.subproc [cmd, "--list-extensions"]) = true := rfl

theorem installArgs_append (a b : List Effect) :
    installArgs (a ++ b) = installArgs a ++ installArgs b := by
  simp [installArgs, List.filterMap_append]

/-- C6: the extension manager queries the installed set exactly once, only
ever passes extensions absent from the installed set to the install step,
and (when the invoked installs succeed) installs exactly the requested
extensions absent from the installed set, in the order of the requested
list.  Already-installed extensions are never passed to the install
step. -/
theorem extension_manager_installs_missing_in_order (cmd : String)
    (installed : List String) (installOk : String → Bool)
    (extensions : List String) :
    listQueryCount
        (maybe_install_vscode_extensions cmd installed installOk extensions).2
      = 1 ∧
    (∀ x ∈ installArgs
        (maybe_install_vscode_extensions cmd installed installOk extensions).2,
      x ∈ extensions.filter (fun e => !installed.contains e)) ∧
    ((∀ x ∈ extensions.filter (fun e => !installed.contains e),
        installOk x = true) →
      installArgs
          (maybe_install_vscode_extensions cmd installed installOk extensions).2
        = extensions.filter (fun e => !installed.contains e)) := by
  by_cases hemp : (extensions.filter (fun e => !installed.contains e)).isEmpty
  · have hout : maybe_install_vscode_extensions cmd installed installOk extensions
        = (true, [Effect.subproc [cmd, "--list-extensions"]]) := by
      simp only [maybe_install_vscode_extensions]
      rw [if_pos hemp]
    have hnil : extensions.filter (fun e => !installed.contains e) = [] :=
      List.isEmpty_iff.mp hemp
    rw [hout, hnil]
    refine ⟨rfl, ?_, fun _ => ?_⟩
    · intro x hx
      simp [installArgs, effectInstallArg_query] at hx
    · simp [installArgs, effectInstallArg_query]
  · have hout : maybe_install_vscode_extensions cmd installed installOk extensions
        = ((installLoop cmd installOk
              (extensions.filter (fun e => !installed.contains e))).1,
           Effect.subproc [cmd, "--list-extensions"] ::
             (installLoop cmd installOk
               (extensions.filter (fun e => !installed.contains e))).2) := by
      simp only [maybe_install_vscode_extensions]
      rw [if_neg hemp]
    rw [hout]
    refine ⟨?_, ?_, ?_⟩
    · have h0 := listQueryCount_installLoop cmd installOk
        (extensions.filter (fun e => !installed.contains e))
      simp only [listQueryCount] at h0 ⊢
      rw [List.countP_cons, h0, isListQuery_query]
      rfl
    · intro x hx
      simp only [installArgs, List.filterMap_cons, effectInstallArg_query] at hx
      exact installArgs_installLoop_sub cmd installOk _ x hx
    · intro hall
      rw [installLoop_all_ok cmd installOk _ hall]
      simp only [installArgs, List.filterMap_cons, effectInstallArg_query]
      exact installArgs_map_installEffect cmd _

/-- Witness for C6 at the concrete example of the claim: installed `{A}`,
requested `[A, B]` yields exactly one list query and exactly one install
call, for `B`. -/
theorem extension_manager_witness :
    listQueryCount (maybe_install_vscode_extensions "/usr/bin/code" ["A"]
      (fun _ => true) ["A", "B"]).2 = 1 ∧
    installArgs (maybe_install_vscode_extensions "/usr/bin/code" ["A"]
      (fun _ => true) ["A", "B"]).2 = ["B"] := by
  constructor
  · exact (extension_manager_installs_missing_in_order "/usr/bin/code" ["A"]
      (fun _ => true) ["A", "B"]).1
  · have h := (extension_manager_installs_missing_in_order "/usr/bin/code"
      ["A"] (fun _ => true) ["A", "B"]).2.2 (fun x _ => rfl)
    rw [h]
    decide

/-- C7: when the missing extensions are `pre ++ f :: post` with every
install in `pre` succeeding and the install of `f` failing, the manager
stops: it performs the install calls for `pre` and `f` only (none for
`post`) and returns failure.  When every install succeeds it returns
success. -/
theorem extension_install_failure_aborts (cmd : String)
    (installed : List String) (installOk : String → Bool)
    (extensions pre post : List String) (f : String) :
    (extensions.filter (fun e => !installed.contains e) = pre ++ f :: post →
      (∀ e ∈ pre, installOk e = true) → installOk f = false →
      (maybe_install_vscode_extensions cmd installed installOk extensions).1
        = false ∧
      installArgs
          (maybe_install_vscode_extensions cmd installed installOk extensions).2
        = pre ++ [f]) ∧
    ((∀ e ∈ extensions.filter (fun e => !installed.contains e),
        installOk e = true) →
      (maybe_install_vscode_extensions cmd installed installOk extensions).1
        = true) := by
  constructor
  · intro hm hpre hf
    have hne : (extensions.filter (fun e => !installed.contains e)).isEmpty
        = false := by
      rw [hm]
      rcases pre with _ | ⟨a, pre2⟩ <;> simp
    have hout : maybe_install_vscode_extensions cmd installed installOk extensions
        = ((installLoop cmd installOk
              (extensions.filter (fun e => !installed.contains e))).1,
           Effect.subproc [cmd, "--list-extensions"] ::
             (installLoop cmd installOk
               (extensions.filter (fun e => !installed.contains e))).2) := by
      simp only [maybe_install_vscode_extensions]
      rw [if_neg (by rw [hne]; exact Bool.false_ne_true)]
    rw [hout, hm, installLoop_fail cmd installOk pre f post hpre hf]
    constructor
    · rfl
    · simp only [installArgs, List.filterMap_cons, effectInstallArg_query]
      rw [← installArgs, installArgs_append]
      rw [installArgs_map_installEffect]
      simp [installArgs, effectInstallArg_installEffect]
  · intro hall
    by_cases hemp : (extensions.filter (fun e => !installed.contains e)).isEmpty
    · simp only [maybe_install_vscode_extensions]
      rw [if_pos hemp]
    · simp only [maybe_install_vscode_extensions]
      rw [if_neg hemp]
      rw [installLoop_all_ok cmd installOk _ hall]

/-- Witness for C7: with nothing installed, requested `[A, B, C]`, installs
succeeding only for `A`, the manager calls install for `A` then `B` and
stops with failure; and with a single extension whose install succeeds it
returns success. -/
theorem extension_failure_witness :
    (maybe_install_vscode_extensions "/usr/bin/code" []
      (fun e => e == "A") ["A", "B", "C"]).1 = false ∧
    installArgs (maybe_install_vscode_extensions "/usr/bin/code" []
      (fun e => e == "A") ["A", "B", "C"]).2 = ["A", "B"] ∧
    (maybe_install_vscode_extensions "/usr/bin/code" []
      (fun _ => true) ["A"]).1 = true := by
  have h := (extension_install_failure_aborts "/usr/bin/code" []
    (fun e => e == "A") ["A", "B", "C"] ["A"] ["C"] "B").1 rfl
    (by intro e he; simp at he; simp [he]) rfl
  refine ⟨h.1, h.2, ?_⟩
  exact (extension_install_failure_aborts "/usr/bin/code" []
    (fun _ => true) ["A"] [] [] "").2 (fun e _ => rfl)

theorem setup_didWrite_eq (path : String) (fe : Bool)
    (c : List (String × JValue)) (de : Bool)
    (rec : List (String × JValue)) :
    (setup_vscode_settings path fe c de rec).didWrite
      = (mergeSettings rec (if fe then c else [])).didChange := by
  cases hb : (mergeSettings rec (if fe then c else [])).didChange <;>
    simp [setup_vscode_settings, hb]

theorem setup_no_change (path : String) (fe : Bool)
    (c : List (String × JValue)) (de : Bool) (rec : List (String × JValue))
    (h : (mergeSettings rec (if fe then c else [])).didChange = false) :
    (setup_vscode_settings path fe c de rec).effects = [] := by
  simp only [setup_vscode_settings]
  rw [if_neg (by simp [h])]

theorem setup_dirCreated_eq (path : String) (fe : Bool)
    (c : List (String × JValue)) (de : Bool)
    (rec : List (String × JValue)) :
    (setup_vscode_settings path fe c de rec).dirCreated
      = ((setup_vscode_settings path fe c de rec).didWrite && !de) := by
  simp only [setup_vscode_settings]
  split_ifs <;> simp

/-- C8 counterexample: with the recommended key already present (bound to
the falsy value `false`), no key is added by the merge, yet the merger
rewrites the file (and creates the missing directory), because the falsy
conflicting value is overwritten and sets the change flag.  This refutes
the writes-iff-a-key-was-added claim as stated. -/
theorem settings_write_without_added_key :
    lookupKey typeCheckingKey [(typeCheckingKey, JValue.bool false)]
      = some (JValue.bool false) ∧
    (setup_vscode_settings "/work" true
        [(typeCheckingKey, JValue.bool false)] false
        RECOMMENDED_VSCODE_SETTINGS).didWrite = true ∧
    (setup_vscode_settings "/work" true
        [(typeCheckingKey, JValue.bool false)] false
        RECOMMENDED_VSCODE_SETTINGS).dirCreated = true :=
  ⟨rfl, rfl, rfl⟩

/-- C8 amended: the merger writes the settings file exactly when at least
one recommended key is, in the pre-merge mapping, absent or bound to a
falsy value different from the recommended value; in particular, when
every recommended key is present with the exact recommended value, no
write happens and no effect is produced, and the missing directory is
created exactly when a write happens while the directory is missing. -/
theorem settings_write_iff_merge_changed (path : String)
    (contents : List (String × JValue)) (dirExists : Bool)
    (recommended : List (String × JValue))
    (h : (recommended.map Prod.fst).Nodup) :
    ((setup_vscode_settings path true contents dirExists recommended).didWrite
        = true ↔
      ∃ p ∈ recommended, changeCond contents p = true) ∧
    ((∀ p ∈ recommended,
        ∃ v, lookupKey p.1 contents = some v ∧ pyEq v p.2 = true) →
      (setup_vscode_settings path true contents dirExists
          recommended).didWrite = false ∧
      (setup_vscode_settings path true contents dirExists
          recommended).effects = []) ∧
    (setup_vscode_settings path true contents dirExists recommended).dirCreated
      = ((setup_vscode_settings path true contents dirExists
          recommended).didWrite && !dirExists) := by
  have hdw : (setup_vscode_settings path true contents dirExists
      recommended).didWrite = (mergeSettings recommended contents).didChange := by
    rw [setup_didWrite_eq]
    rfl
  refine ⟨?_, ?_, setup_dirCreated_eq path true contents dirExists recommended⟩
  · rw [hdw]
    exact mergeSettings_didChange_iff recommended contents h
  · intro hall
    have hnone : ¬∃ p ∈ recommended, changeCond contents p = true := by
      rintro ⟨p, hp, hcp⟩
      obtain ⟨v, hv, hpe⟩ := hall p hp
      unfold changeCond at hcp
      rw [hv] at hcp
      simp [hpe] at hcp
    have hch : (mergeSettings recommended contents).didChange = false := by
      cases hb : (mergeSettings recommended contents).didChange
      · rfl
      · exact absurd ((mergeSettings_didChange_iff recommended contents h).mp hb)
          hnone
    exact ⟨hdw.trans hch, setup_no_change path true contents dirExists
      recommended hch⟩

/-- Witness for C8 amended: a merge that adds a key writes; a file already
holding the exact recommended value is not written and produces no
effect. -/
theorem settings_write_iff_witness :
    (setup_vscode_settings "/work" true [("a", JValue.num 3)] true
        [("a", JValue.num 3), ("b", JValue.str "s")]).didWrite = true ∧
    (setup_vscode_settings "/work" true
        [(typeCheckingKey, JValue.str "strict")] true
        RECOMMENDED_VSCODE_SETTINGS).didWrite = false ∧
    (setup_vscode_settings "/work" true
        [(typeCheckingKey, JValue.str "strict")] true
        RECOMMENDED_VSCODE_SETTINGS).effects = [] := by
  have h2 := (settings_write_iff_merge_changed "/work"
    [(typeCheckingKey, JValue.str "strict")] true RECOMMENDED_VSCODE_SETTINGS
    (by decide)).2.1 (by
      intro p hp
      simp only [RECOMMENDED_VSCODE_SETTINGS, List.mem_singleton] at hp
      refine ⟨JValue.str "strict", ?_, ?_⟩ <;> rw [hp] <;> rfl)
  refine ⟨?_, h2.1, h2.2⟩
  exact (settings_write_iff_merge_changed "/work" [("a", JValue.num 3)] true
    [("a", JValue.num 3), ("b", JValue.str "s")] (by decide)).1.mpr
    ⟨("b", JValue.str "s"), by simp, rfl⟩

/-- C9 counterexample: with an empty (existing) settings file and a
recommended value of JSON `null` for an absent key, the merge does not add
the key and does not rewrite the file, refuting the claim as stated for
that input: Python reads the absent key as `None`, which compares equal to
the recommended `None`, so the assignment branch is skipped. -/
theorem settings_merge_null_counterexample :
    lookupKey "x" (setup_vscode_settings "/work" true [] true
        [("x", JValue.null)]).result = none ∧
    (setup_vscode_settings "/work" true [] true
        [("x", JValue.null)]).didWrite = false :=
  ⟨rfl, rfl⟩

/-- C9 amended: the merge sets every recommended key that is absent from
the mapping, provided its recommended value is not JSON `null` (a `null`
recommended value is indistinguishable from an absent key in Python and is
skipped), and it leaves every key outside the recommended mapping
unchanged; on the claim example the file `{"y": 2}` with recommended
`{"x": 1}` becomes `{"y": 2, "x": 1}` and is rewritten. -/
theorem settings_merge_adds_absent_keys
    (recommended contents : List (String × JValue))
    (h : (recommended.map Prod.fst).Nodup) :
    (∀ k v, (k, v) ∈ recommended → lookupKey k contents = none →
      v ≠ JValue.null →
      lookupKey k (mergeSettings recommended contents).settings = some v) ∧
    (∀ k, k ∉ recommended.map Prod.fst →
      lookupKey k (mergeSettings recommended contents).settings
        = lookupKey k contents) ∧
    ((setup_vscode_settings "/work" true [("y", JValue.num 2)] true
        [("x", JValue.num 1)]).result
      = [("y", JValue.num 2), ("x", JValue.num 1)] ∧
     (setup_vscode_settings "/work" true [("y", JValue.num 2)] true
        [("x", JValue.num 1)]).didWrite = true) := by
  refine ⟨?_, ?_, rfl, rfl⟩
  · intro k v hmem habs hnn
    exact mergeSettings_sets_absent recommended contents h k v hmem habs hnn
  · intro k hk
    exact mergeSettings_lookup_not_mem recommended contents k hk

/-- Witness for C9 amended at the claim example. -/
theorem settings_merge_adds_absent_keys_witness :
    lookupKey "x" (mergeSettings [("x", JValue.num 1)]
        [("y", JValue.num 2)]).settings = some (JValue.num 1) ∧
    lookupKey "y" (mergeSettings [("x", JValue.num 1)]
        [("y", JValue.num 2)]).settings
      = lookupKey "y" [("y", JValue.num 2)] := by
  constructor
  · exact (settings_merge_adds_absent_keys [("x", JValue.num 1)]
      [("y", JValue.num 2)] (by simp)).1 "x" (JValue.num 1) (by simp) rfl
      (by simp)
  · exact (settings_merge_adds_absent_keys [("x", JValue.num 1)]
      [("y", JValue.num 2)] (by simp)).2.1 "y" (by simp)

/-- C10: the confirmation prompt returns `False` on empty input, returns
the mapped value exactly for the valid answers, re-prompts on anything
else; and with the `--yes` flag unset an empty response to the
working-directory confirmation ends the run with no effect and without
reaching the install or settings stage. -/
theorem yes_no_prompt_and_early_exit :
    (∀ rest, query_yes_no ("" :: rest) = .ok false) ∧
    (∀ c rest b, tableLookup (pyLower c) yes_no_valid = some b →
      pyLower c ≠ "" → query_yes_no (c :: rest) = .ok b) ∧
    (∀ c rest, pyLower c ≠ "" → tableLookup (pyLower c) yes_no_valid = none →
      query_yes_no (c :: rest) = query_yes_no rest) ∧
    (∀ env finputs cwd rest,
      install_all env false ("" :: rest) finputs cwd
        = ⟨.ok (), [], none⟩) := by
  refine ⟨fun rest => rfl, ?_, ?_, ?_⟩
  · intro c rest b hb hne
    simp [query_yes_no, hne, hb]
  · intro c rest hne hl
    simp [query_yes_no, hne, hl]
  · intro env finputs cwd rest
    rfl

/-- Witness for C10 at concrete inputs: empty answer, a valid answer, an
invalid answer that re-prompts, and the early-exit run. -/
theorem yes_no_prompt_witness :
    query_yes_no [""] = .ok false ∧
    query_yes_no ["YES"] = .ok true ∧
    query_yes_no ["maybe", "n"] = query_yes_no ["n"] ∧
    install_all envDefault false [""] [] "/work" = ⟨.ok (), [], none⟩ := by
  refine ⟨yes_no_prompt_and_early_exit.1 [], ?_, ?_,
    yes_no_prompt_and_early_exit.2.2.2 envDefault [] "/work" []⟩
  · exact yes_no_prompt_and_early_exit.2.1 "YES" [] true rfl (by decide)
  · exact yes_no_prompt_and_early_exit.2.2.1 "maybe" ["n"] (by decide) rfl

